import Mathlib

/-!
Verification of the Sabrang_Form registration system's CRUD layer.

The repository has three store variants: a JSON-file-backed manager
(simple_crud.py, class SimpleRegistrationManager), a MySQL-backed manager
(crud_operations.py, class CommitteeRegistrationDB) and the Streamlit web app
(app.py). This file gives a shallow embedding of the record-store operations
those files implement — view/filter/sort, delete, statistics, CSV export, the
social-link splitter — and proves or refutes the specification's claims about
them.  Python strings are Lean `String`s; Python `None` is `Option.none`;
Python truthiness of optional arguments is made explicit; file-system and
database effects are modelled by explicit state passing.
-/

namespace Sabrang

/-! ### Python-semantics helpers -/

/-- Truthiness of a Python `Optional[str]` argument (`if committee:`):
`None` and the empty string are falsy. -/
def truthyStr : Option String → Bool
  | none => false
  | some s => s != ""

/-- Truthiness of a Python `Optional[int]` argument (`if limit:`):
`None` and `0` are falsy. -/
def truthyInt : Option Int → Bool
  | none => false
  | some n => n != 0

/-- Python string comparison `a <= b` on a list of characters: lexicographic
by code point, a proper prefix is smaller. -/
def listLE : List Char → List Char → Bool
  | [], _ => true
  | _ :: _, [] => false
  | a :: as, b :: bs =>
    if a.toNat < b.toNat then true
    else if b.toNat < a.toNat then false
    else listLE as bs

/-- Python `a <= b` on strings (code-point lexicographic order; ISO-8601
submission dates compare chronologically under this order). -/
def pyStrLE (a b : String) : Bool := listLE a.data b.data

/-- Newest-first ordering used by `view_records`: `a` comes before `b` when
`b`'s key is at most `a`'s key.  `f` extracts the sort key
(the `submission_date` field). -/
def dateGEBy (f : α → String) (a b : α) : Prop :=
  pyStrLE (f b) (f a) = true

instance (f : α → String) : DecidableRel (dateGEBy f) := fun a b => by
  unfold dateGEBy; infer_instance

/-- Python slicing `xs[:k]` for an arbitrary integer `k`: a nonnegative `k`
keeps the first `k` elements, a negative `k` drops `-k` elements from the
end. -/
def pySliceTo (l : List α) (k : Int) : List α :=
  if 0 ≤ k then l.take k.toNat else l.take (l.length - (-k).toNat)

/-- Whether the first character list is a leading segment of the second. -/
def leadsList : List Char → List Char → Bool
  | [], _ => true
  | _ :: _, [] => false
  | a :: as, b :: bs => a == b && leadsList as bs

/-- Whether the first character list occurs contiguously inside the second
(Python's `in` operator on strings). -/
def subList (needle : List Char) : List Char → Bool
  | [] => leadsList needle []
  | c :: rest => leadsList needle (c :: rest) || subList needle rest

/-- Case-insensitive substring test, Python `needle.lower() in hay.lower()`
(simple_crud.py lines 130-136; the SQL variant's `LIKE '%needle%'` under the
connection's case-insensitive collation has the same meaning). -/
def substrCI (needle hay : String) : Bool :=
  subList (needle.data.map Char.toLower) (hay.data.map Char.toLower)

/-- Python `str.strip()` on a character list: drop leading whitespace, then
drop trailing whitespace. -/
def stripChars (l : List Char) : List Char :=
  ((l.dropWhile Char.isWhitespace).reverse.dropWhile Char.isWhitespace).reverse

/-- Python `str.strip()`. -/
def pyStrip (s : String) : String := ⟨stripChars s.data⟩

/-- Python `str.split(',')` on a character list: cut at every comma, keeping
empty fragments (`''.split(',') == ['']`). -/
def splitOnComma : List Char → List (List Char)
  | [] => [[]]
  | c :: rest =>
    let r := splitOnComma rest
    if c = ',' then [] :: r
    else
      match r with
      | s :: ss => (c :: s) :: ss
      | [] => [[c]]

/-- Python `str(value)` for an optional string column value: `None` prints
as `"None"`. -/
def pyStrOfOpt : Option String → String
  | none => "None"
  | some s => s

/-! ### Data model

JSON records written by `SimpleRegistrationManager.add_record`
(simple_crud.py lines 50-59) and rows of the MySQL `submissions` table
(crud_operations.py lines 61-72, app.py lines 85-96). -/

/-- One record of the JSON-file store (simple_crud.py): the dict built in
`add_record`.  `submission_date` is an ISO-format string. -/
structure SimpleRec where
  id : Int
  submission_id : String
  name : String
  committee : String
  social_media_links : Option String
  email : Option String
  phone : Option String
  submission_date : String
deriving DecidableEq, Repr

/-- One row of the MySQL `submissions` table. -/
structure Row where
  id : Int
  submission_id : String
  name : String
  committee : String
  social_media_links : Option String
  photo_filename : Option String
  photo_data : Option (List Nat)
  submission_date : String
deriving DecidableEq, Repr

/-- The projection produced by the `SELECT id, submission_id, name, committee,
social_media_links, photo_filename, submission_date` queries of
crud_operations.view_records (lines 199-203) and app.get_all_submissions
(lines 139-144): every column except the binary `photo_data`. -/
structure RowView where
  id : Int
  submission_id : String
  name : String
  committee : String
  social_media_links : Option String
  photo_filename : Option String
  submission_date : String
deriving DecidableEq, Repr

/-- Projection of a table row onto the selected (photo-free) columns. -/
def projectView (r : Row) : RowView :=
  { id := r.id, submission_id := r.submission_id, name := r.name,
    committee := r.committee, social_media_links := r.social_media_links,
    photo_filename := r.photo_filename, submission_date := r.submission_date }

/-! ### view_records (simple_crud.py lines 124-148) -/

/-- The committee filter of `view_records` (simple_crud.py lines 130-132):
applied only when the argument is truthy. -/
def committeeStep (committee : Option String) (data : List SimpleRec) :
    List SimpleRec :=
  if truthyStr committee then
    data.filter (fun r => substrCI (committee.getD "") r.committee)
  else data

/-- The name filter of `view_records` (simple_crud.py lines 134-136):
applied only when the argument is truthy. -/
def nameStep (search_name : Option String) (data : List SimpleRec) :
    List SimpleRec :=
  if truthyStr search_name then
    data.filter (fun r => substrCI (search_name.getD "") r.name)
  else data

/-- The final slice of `view_records` (simple_crud.py lines 141-142):
`filtered_data[:limit]`, applied only when `limit` is truthy — so `limit=0`
leaves the list unsliced. -/
def limitStep (limit : Option Int) (data : List SimpleRec) : List SimpleRec :=
  if truthyInt limit then pySliceTo data (limit.getD 0) else data

/-- Embedding of `SimpleRegistrationManager.view_records(committee, search_name, limit)`.
Applies the committee filter when truthy, then the name filter when truthy,
sorts by `submission_date` newest first (Python's stable sort with
`reverse=True`, line 139), and finally slices `[:limit]` when `limit` is
truthy. -/
def view_records (data : List SimpleRec) (committee search_name : Option String)
    (limit : Option Int) : List SimpleRec :=
  limitStep limit
    ((nameStep search_name (committeeStep committee data)).insertionSort
      (dateGEBy SimpleRec.submission_date))

/-! ### delete_record -/

/-- Embedding of `SimpleRegistrationManager.delete_record(submission_id, record_id)`
(simple_crud.py lines 77-122).  The search honours Python truthiness
(`if submission_id: ... elif record_id: ...`); a missing match returns
`False` before the confirmation prompt.  `confirm` is the reply read from
`input(...)`; `saveOk` is whether `save_data` succeeds.  Returns the boolean
result together with the in-memory record list after the call. -/
def delete_record (data : List SimpleRec) (sid? : Option String)
    (rid? : Option Int) (confirm : String) (saveOk : Bool) :
    Bool × List SimpleRec :=
  let found : Option Nat :=
    if truthyStr sid? then
      data.findIdx? (fun r => r.submission_id == sid?.getD "")
    else if truthyInt rid? then
      data.findIdx? (fun r => r.id == rid?.getD 0)
    else none
  match found with
  | none => (false, data)
  | some i =>
    if confirm.data.map Char.toLower != "yes".data then (false, data)
    else
      let data2 := data.eraseIdx i
      if saveOk then (true, data2) else (false, data2)

/-- Result of `CommitteeRegistrationDB.delete_record` (crud_operations.py
lines 125-189), instrumented with the connection lifecycle: `ok` is the
returned boolean, `table` the table contents after the call, and
`connClosed` whether `conn.close()` (line 178) was reached. -/
structure DbDeleteResult where
  ok : Bool
  table : List Row
  connClosed : Bool
deriving DecidableEq, Repr

/-- Embedding of `CommitteeRegistrationDB.delete_record(submission_id=sid)`.  `execRaises`
models a connectivity failure in the cursor calls (caught by the blanket
`except`, which does not close the connection); the not-found and cancelled
paths return early, also without closing the connection. -/
def db_delete_record (table : List Row) (sid : String) (confirm : String)
    (execRaises : Bool) : DbDeleteResult :=
  if execRaises then { ok := false, table := table, connClosed := false }
  else
    match table.find? (fun r => r.submission_id == sid) with
    | none => { ok := false, table := table, connClosed := false }
    | some _ =>
      if confirm.data.map Char.toLower != "yes".data then
        { ok := false, table := table, connClosed := false }
      else
        let table2 := table.filter (fun r => !(r.submission_id == sid))
        { ok := table.length - table2.length > 0, table := table2,
          connClosed := true }

/-! ### Connection lifecycle of the remaining store operations (claim C6) -/

/-- Embedding of `app.get_photo_data(submission_id)` (app.py lines 155-164), instrumented
with whether the executed statement raises.  The function has no
`try/finally`: an exception propagates before `conn.close()` on line 162 is
reached, so the connection is only closed on the normal path.  First
component: the Python result (`Except.error` = exception propagated to the
caller); second component: whether the connection was closed. -/
def get_photo_data (table : List Row) (sid : String) (execRaises : Bool) :
    Except Unit (Option (List Nat)) × Bool :=
  if execRaises then (Except.error (), false)
  else
    (Except.ok ((table.find? (fun r => r.submission_id == sid)).bind
      (fun r => r.photo_data)), true)

/-- Embedding of `CommitteeRegistrationDB.get_record_by_id(submission_id)`
(crud_operations.py lines 234-248): on an execution error the blanket
`except` returns `None` without closing the connection; on the normal path
the connection is closed before returning. -/
def db_get_record_by_id (table : List Row) (sid : String) (execRaises : Bool) :
    Option Row × Bool :=
  if execRaises then (none, false)
  else (table.find? (fun r => r.submission_id == sid), true)

/-- Embedding of `app.get_all_submissions()` (app.py lines 135-153): the query runs inside
`try/except/finally`, so `engine.dispose()` runs on both the normal and the
exception path.  First component: the returned row set (empty on error);
second component: whether the engine was disposed. -/
def get_all_submissions (table : List Row) (queryRaises : Bool) :
    List RowView × Bool :=
  if queryRaises then ([], true)
  else ((table.insertionSort (dateGEBy Row.submission_date)).map projectView,
        true)

/-! ### Statistics -/

/-- Python dict counting: bump the count of key `k`, preserving first-seen
key order (insertion order of a Python dict). -/
def bumpKey : List (String × Nat) → String → List (String × Nat)
  | [], k => [(k, 1)]
  | p :: rest, k =>
    if p.1 = k then (p.1, p.2 + 1) :: rest else p :: bumpKey rest k

/-- Count held by an association list for a key (0 when the key is absent);
Python dict lookup for lists with no duplicate keys. -/
def getCount : List (String × Nat) → String → Nat
  | [], _ => 0
  | p :: rest, c => if p.1 = c then p.2 else getCount rest c

/-- The `committees` dict of `SimpleRegistrationManager.get_statistics`
(simple_crud.py lines 163-166) and the row multiset seen by the SQL
`GROUP BY committee` (crud_operations.py lines 261-266): one entry per
distinct committee string with its number of records, in first-seen order. -/
def committeeCounts (cs : List String) : List (String × Nat) :=
  cs.foldl bumpKey []

/-- The statistics dict assembled by `SimpleRegistrationManager
.get_statistics` when no exception occurs. -/
structure SimpleStats where
  total_records : Nat
  committee_stats : List (String × Nat)
  recent_records : Nat
  with_social_media : Nat
deriving DecidableEq, Repr

/-- The body of the `try` block of `SimpleRegistrationManager.get_statistics`
(simple_crud.py lines 159-190).  After computing `total_records` and the
`committees` dict, line 170-171 evaluates
`datetime.now().replace(...) - datetime.timedelta(days=7)`.  The module only
ever imports the class (`from datetime import datetime`, line 11), and the
`datetime` class has no attribute `timedelta`, so that expression raises
`AttributeError` unconditionally — the body never reaches the
`recent_count` loop or the `return`. -/
def get_statistics_body (data : List SimpleRec) : Except Unit SimpleStats :=
  let _total_records := data.length
  let _committees := committeeCounts (data.map (fun r => r.committee))
  Except.error ()

/-- Embedding of `SimpleRegistrationManager.get_statistics()`: the blanket
`except Exception` (lines 192-194) turns the `AttributeError` into the
return value `{}` — modelled as `none`. -/
def get_statistics (data : List SimpleRec) : Option SimpleStats :=
  match get_statistics_body data with
  | Except.ok s => some s
  | Except.error _ => none

/-- Descending-count ordering used by the SQL `ORDER BY count DESC`. -/
def countGE (a b : String × Nat) : Prop := b.2 ≤ a.2

instance : DecidableRel countGE := fun a b => by
  unfold countGE; infer_instance

/-- The `committee_stats` result rows of `CommitteeRegistrationDB
.get_statistics` (crud_operations.py lines 261-267):
`SELECT committee, COUNT(*) FROM submissions GROUP BY committee
ORDER BY count DESC`. -/
def db_committee_stats (table : List Row) : List (String × Nat) :=
  (committeeCounts (table.map (fun r => r.committee))).insertionSort countGE

/-- Number of rows of `table` whose committee equals `c` exactly
(the specification's meaning of a `by_committee` entry, and the value of
`COUNT(*)` within one `GROUP BY committee` group). -/
def countCommittee (table : List Row) (c : String) : Nat :=
  table.countP (fun r => r.committee == c)

/-- Specification-side definition (spec sections 4.3 and 9): `recent_count`
is the number of records with `submission_date >= now - 7 days`, given the
cutoff timestamp rendered as an ISO string. -/
def recent_count_spec (cutoff : String) (data : List SimpleRec) : Nat :=
  data.countP (fun r => pyStrLE cutoff r.submission_date)

/-! ### CSV export -/

/-- Python `str.replace('"', '""')`: double every double-quote character. -/
def doubleQuotes : List Char → List Char
  | [] => []
  | c :: rest =>
    if c = '\"' then '\"' :: '\"' :: doubleQuotes rest
    else c :: doubleQuotes rest

/-- The quoting test of simple_crud.py line 220:
`if ',' in str(value) or '"' in str(value)`. -/
def needsQuoting (s : String) : Bool :=
  s.data.contains ',' || s.data.contains '\"'

/-- One CSV field as written by simple_crud.py lines 218-222: values holding
a comma or a double quote are wrapped in double quotes with embedded quotes
doubled; all other values are written verbatim. -/
def csvField (s : String) : String :=
  if needsQuoting s then ⟨'\"' :: (doubleQuotes s.data ++ ['\"'])⟩ else s

/-- Standard CSV scanning of one quoted field, entered after the opening
quote: a doubled quote contributes one literal quote, a lone closing quote
ends the field. Returns the field contents and the unconsumed input, `none`
on an unterminated field. -/
def scanQuoted : List Char → Option (List Char × List Char)
  | [] => none
  | c :: rest =>
    if c = '\"' then
      match rest with
      | [] => some ([], [])
      | c2 :: rest2 =>
        if c2 = '\"' then
          (scanQuoted rest2).map (fun p => ('\"' :: p.1, p.2))
        else some ([], rest)
    else (scanQuoted rest).map (fun p => (c :: p.1, p.2))

/-- Standard CSV parsing of one field at the start of the input: a field
opening with a double quote is scanned as a quoted field, anything else ends
at the next comma.  Returns the field value and the unconsumed input. -/
def readCsvField (l : List Char) : Option (List Char × List Char) :=
  match l with
  | '\"' :: rest => scanQuoted rest
  | _ => some (l.takeWhile (fun c => c != ','), l.dropWhile (fun c => c != ','))

/-- Column headers written by `SimpleRegistrationManager.export_to_csv`
(simple_crud.py lines 207-208). -/
def simple_export_headers : List String :=
  ["id", "submission_id", "name", "committee", "social_media_links",
   "email", "phone", "submission_date"]

/-- Columns of the DataFrame built from `view_records()` rows in
`CommitteeRegistrationDB.export_to_csv` (crud_operations.py lines 200-201
and 301-311): the SELECT column order. -/
def db_export_headers : List String :=
  ["id", "submission_id", "name", "committee", "social_media_links",
   "photo_filename", "submission_date"]

/-- Columns of the admin-panel CSV download (app.py lines 447-451): the
`get_all_submissions` DataFrame columns with the `id` column dropped by
`df.drop(columns=['id'])`. -/
def app_export_headers : List String :=
  db_export_headers.filter (fun c => c != "id")

/-- The header row stated by the specification (section 6): `id,
submission_id, name, committee, social_media_links, photo_filename,
submission_date`. -/
def spec_export_headers : List String :=
  ["id", "submission_id", "name", "committee", "social_media_links",
   "photo_filename", "submission_date"]

/-- One data row of the simple CSV export (simple_crud.py lines 215-223):
the eight header fields in order, `str(value)` rendered and quoted as the
source does. -/
def simpleCsvRow (r : SimpleRec) : String :=
  String.intercalate "," (([toString r.id, r.submission_id, r.name,
    r.committee, pyStrOfOpt r.social_media_links, pyStrOfOpt r.email,
    pyStrOfOpt r.phone, r.submission_date]).map csvField)

/-- The text lines of a non-empty simple export: the joined header row
followed by one row per record. -/
def simple_export_lines (data : List SimpleRec) : List String :=
  String.intercalate "," simple_export_headers :: data.map simpleCsvRow

/-- Embedding of `SimpleRegistrationManager.export_to_csv(filename)` (simple_crud.py
lines 196-231): with no data it prints and returns `False` before touching
the filesystem; otherwise it writes header and rows to `filename` (or an
auto-generated name stamped with the current time `now`).  Second component:
the file written, `none` when nothing is written. -/
def export_to_csv (now : String) (data : List SimpleRec)
    (filename : Option String) : Bool × Option (String × List String) :=
  if data.isEmpty then (false, none)
  else
    let fname := filename.getD ("registrations_export_" ++ now ++ ".csv")
    (true, some (fname, simple_export_lines data))

/-- One data row of the pandas-rendered exports (crud_operations.py line 311,
app.py line 451): the selected columns in order; pandas renders SQL `NULL`
as an empty field and applies standard minimal quoting. -/
def dbCsvRow (v : RowView) : String :=
  String.intercalate "," (([toString v.id, v.submission_id, v.name,
    v.committee, (v.social_media_links.getD ""), (v.photo_filename.getD ""),
    v.submission_date]).map csvField)

/-- Embedding of `CommitteeRegistrationDB.export_to_csv(filename)` (crud_operations.py
lines 298-318): exports the rows of `view_records()` (no filters); with no
rows it returns `False` before creating the DataFrame or the file. -/
def db_export_to_csv (now : String) (table : List Row)
    (filename : Option String) : Bool × Option (String × List String) :=
  let records := (table.insertionSort (dateGEBy Row.submission_date)).map
    projectView
  if records.isEmpty then (false, none)
  else
    let fname := filename.getD ("committee_registrations_" ++ now ++ ".csv")
    (true, some (fname,
      String.intercalate "," db_export_headers :: records.map dbCsvRow))

/-! ### load_data (simple_crud.py lines 22-30) -/

/-- State of the JSON data file as seen by `load_data`: the file may be
absent (`os.path.exists` false), or present with `json.load` either failing
(`JSONDecodeError`) or yielding a list of records. -/
inductive FileState where
  | absent : FileState
  | present : Option (List SimpleRec) → FileState

/-- Embedding of `SimpleRegistrationManager.load_data()`: returns the parsed contents of
an existing well-formed file, and `[]` when the file is absent or
`json.load` raises (the `except` clause on lines 28-29). -/
def load_data : FileState → List SimpleRec
  | FileState.absent => []
  | FileState.present none => []
  | FileState.present (some l) => l

/-! ### parse_social_media_links (app.py lines 166-170) -/

/-- Embedding of `app.parse_social_media_links(links_string)`: falsy input gives `[]`;
otherwise split on commas, strip each fragment, and keep only fragments that
are non-empty after stripping. -/
def parse_social_media_links (links : Option String) : List String :=
  match links with
  | none => []
  | some s =>
    if s = "" then []
    else ((splitOnComma s.data).map (fun f => (⟨stripChars f⟩ : String))).filter
      (fun x => x != "")

/-! ### Concrete sample data used by counterexamples and witnesses -/

/-- A sample JSON-store record (shaped like the output of `add_record` on
the repository's sample data, simple_crud.py lines 414-420). -/
def rec1 : SimpleRec :=
  { id := 1, submission_id := "AAAA1111", name := "John Doe",
    committee := "Technical Committee",
    social_media_links := some "https://a.com, https://b.com",
    email := some "john@example.com", phone := none,
    submission_date := "2025-01-01T10:00:00" }

/-- A second sample record, submitted later than `rec1`. -/
def rec2 : SimpleRec :=
  { id := 2, submission_id := "BBBB2222", name := "Jane Smith",
    committee := "Executive Committee", social_media_links := none,
    email := none, phone := none,
    submission_date := "2025-01-02T10:00:00" }

/-- A third sample record, in the same committee as `rec2`. -/
def rec3 : SimpleRec :=
  { id := 3, submission_id := "CCCC3333", name := "Bob Johnson",
    committee := "Executive Committee", social_media_links := none,
    email := none, phone := none,
    submission_date := "2025-01-03T10:00:00" }

/-- A sample database row. -/
def row1 : Row :=
  { id := 1, submission_id := "AAAA1111", name := "John Doe",
    committee := "Technical Committee",
    social_media_links := some "https://a.com, https://b.com",
    photo_filename := some "john.png", photo_data := some [1, 2, 3],
    submission_date := "2025-01-01 10:00:00" }

/-! ## Ordering lemmas for the newest-first sort -/

/-- Totality of `listLE`. -/
theorem listLE_total : ∀ a b, listLE a b = true ∨ listLE b a = true
  | [], _ => Or.inl rfl
  | _ :: _, [] => Or.inr rfl
  | a :: as, b :: bs => by
    have ih := listLE_total as bs
    by_cases hab : a.toNat < b.toNat
    · left; simp [listLE, hab]
    · by_cases hba : b.toNat < a.toNat
      · right; simp [listLE, hba]
      · rcases ih with h | h
        · left; simp [listLE, hab, hba, h]
        · right; simp [listLE, hab, hba, h]

/-- Transitivity of `listLE`. -/
theorem listLE_trans : ∀ a b c, listLE a b = true → listLE b c = true →
    listLE a c = true
  | [], _, _, _, _ => rfl
  | _ :: _, [], _, h, _ => by simp [listLE] at h
  | _ :: _, _ :: _, [], _, h => by simp [listLE] at h
  | a :: as, b :: bs, c :: cs, h1, h2 => by
    have ih := listLE_trans as bs cs
    by_cases hab : a.toNat < b.toNat <;> by_cases hba : b.toNat < a.toNat <;>
      by_cases hbc : b.toNat < c.toNat <;> by_cases hcb : c.toNat < b.toNat <;>
      simp [listLE, hab, hba, hbc, hcb] at h1 h2 ⊢
    all_goals
      first
        | omega
        | (constructor <;> omega)
        | exact Or.inr (And.intro (by omega) (ih h1 h2))

instance (f : α → String) : IsTotal α (dateGEBy f) :=
  ⟨fun a b => by
    unfold dateGEBy pyStrLE
    rcases listLE_total (f b).data (f a).data with h | h
    · exact Or.inl h
    · exact Or.inr h⟩

instance (f : α → String) : IsTrans α (dateGEBy f) :=
  ⟨fun a b c hab hbc => by
    unfold dateGEBy pyStrLE at hab hbc ⊢
    exact listLE_trans _ _ _ hbc hab⟩

instance : IsTotal (String × Nat) countGE :=
  ⟨fun a b => by unfold countGE; omega⟩

instance : IsTrans (String × Nat) countGE :=
  ⟨fun a b c hab hbc => by unfold countGE at hab hbc ⊢; omega⟩

/-! ## Lemmas on the view_records pipeline -/

theorem mem_of_mem_limitStep {lim : Option Int} {l : List SimpleRec}
    {r : SimpleRec} (h : r ∈ limitStep lim l) : r ∈ l := by
  unfold limitStep pySliceTo at h
  split at h
  · split at h <;> exact List.take_subset _ _ h
  · exact h

theorem pairwise_limitStep {lim : Option Int} {l : List SimpleRec}
    {R : SimpleRec → SimpleRec → Prop} (h : l.Pairwise R) :
    (limitStep lim l).Pairwise R := by
  unfold limitStep pySliceTo
  split
  · split <;> exact List.Pairwise.sublist (List.take_sublist _ _) h
  · exact h

theorem length_limitStep_le {n : Int} {l : List SimpleRec} (hn : 0 < n) :
    (limitStep (some n) l).length ≤ n.toNat := by
  unfold limitStep pySliceTo
  have ht : truthyInt (some n) = true := by
    simp [truthyInt]; omega
  rw [ht, if_pos, Option.getD_some, if_pos (le_of_lt hn)]
  · simp [List.length_take]
  · rfl

theorem mem_of_mem_committeeStep {c : Option String} {data : List SimpleRec}
    {r : SimpleRec} (h : r ∈ committeeStep c data) : r ∈ data := by
  unfold committeeStep at h
  split at h
  · exact List.mem_of_mem_filter h
  · exact h

theorem committee_of_mem_committeeStep {c : Option String}
    {data : List SimpleRec} {r : SimpleRec} (h : r ∈ committeeStep c data)
    (hc : truthyStr c = true) : substrCI (c.getD "") r.committee = true := by
  unfold committeeStep at h
  rw [if_pos hc] at h
  exact (List.mem_filter.mp h).2

theorem mem_of_mem_nameStep {s : Option String} {data : List SimpleRec}
    {r : SimpleRec} (h : r ∈ nameStep s data) : r ∈ data := by
  unfold nameStep at h
  split at h
  · exact List.mem_of_mem_filter h
  · exact h

theorem name_of_mem_nameStep {s : Option String} {data : List SimpleRec}
    {r : SimpleRec} (h : r ∈ nameStep s data) (hs : truthyStr s = true) :
    substrCI (s.getD "") r.name = true := by
  unfold nameStep at h
  rw [if_pos hs] at h
  exact (List.mem_filter.mp h).2

/-! ## Claim C1 -/

/-- C1 (amended): every record returned by `view_records` matches each truthy
filter by case-insensitive substring containment (absent filters impose no
constraint, witnessed by the permutation conjunct); the result is ordered
newest `submission_date` first; a supplied POSITIVE limit `n` caps the
result length at `n`; and with no filters and no limit the result is a
permutation of the whole store. -/
theorem C1_view_records_filters_sort_limit
    (data : List SimpleRec) (c s : Option String) (lim : Option Int) :
    (∀ r ∈ view_records data c s lim,
        (truthyStr c = true → substrCI (c.getD "") r.committee = true)
      ∧ (truthyStr s = true → substrCI (s.getD "") r.name = true))
    ∧ (view_records data c s lim).Pairwise
        (dateGEBy SimpleRec.submission_date)
    ∧ (∀ n : Int, lim = some n → 0 < n →
        (view_records data c s lim).length ≤ n.toNat)
    ∧ (c = none → s = none → lim = none →
        (view_records data c s lim).Perm data) := by
  unfold view_records
  refine ⟨?_, ?_, ?_, ?_⟩
  · intro r hr
    have h1 : r ∈ (nameStep s (committeeStep c data)).insertionSort
        (dateGEBy SimpleRec.submission_date) := mem_of_mem_limitStep hr
    have h2 : r ∈ nameStep s (committeeStep c data) :=
      (List.mem_insertionSort _).mp h1
    exact ⟨fun hc => committee_of_mem_committeeStep (mem_of_mem_nameStep h2) hc,
           fun hs => name_of_mem_nameStep h2 hs⟩
  · exact pairwise_limitStep
      (List.sorted_insertionSort (dateGEBy SimpleRec.submission_date) _)
  · intro n hn hpos
    subst hn
    exact length_limitStep_le hpos
  · intro hc hs hl
    subst hc; subst hs; subst hl
    have h1 : committeeStep none data = data := rfl
    rw [h1]
    have h2 : nameStep none data = data := rfl
    rw [h2]
    have h3 : limitStep none (data.insertionSort
        (dateGEBy SimpleRec.submission_date)) = data.insertionSort
        (dateGEBy SimpleRec.submission_date) := rfl
    rw [h3]
    exact List.perm_insertionSort _ _

/-- C1 witness: concrete instantiations of the filter and limit conjuncts. -/
theorem C1_view_records_witness :
    substrCI "tech" rec1.committee = true
    ∧ (view_records [rec1, rec2] none none (some 1)).length ≤ (1 : Int).toNat := by
  constructor
  · exact ((C1_view_records_filters_sort_limit [rec1] (some "tech") none none).1
      rec1 (by decide)).1 (by decide)
  · exact (C1_view_records_filters_sort_limit [rec1, rec2] none none
      (some 1)).2.2.1 1 rfl (by decide)

/-- C1 counterexample: the claim says a supplied limit `n` caps the result
length at `n` — but Python's `if limit:` treats a supplied limit of 0 as
falsy (simple_crud.py line 141), so the slice is skipped and a one-record
store yields one record. -/
theorem C1_limit_zero_counterexample :
    ¬ ((view_records [rec1] none none (some 0)).length ≤ 0) := by decide

/-! ## Claim C2 -/

/-- C2: the JSON-file variant never reports a `recent_count` at all.  The
class imported by `from datetime import datetime` has no `timedelta`
attribute, so `SimpleRegistrationManager.get_statistics` raises
`AttributeError` at line 171 on every input and the blanket `except` turns
every call into the empty dict — while the specification's
`recent_count` of the one-record store `[rec2]` (cutoff a week before a call
on 2025-01-08) is 1. -/
theorem C2_simple_statistics_always_empty :
    (∀ data : List SimpleRec, get_statistics data = none)
    ∧ get_statistics [rec2] = none
    ∧ recent_count_spec "2025-01-01T00:00:00" [rec2] = 1 :=
  ⟨fun _ => rfl, rfl, by decide⟩

/-! ## Claim C4 -/

/-- C4: deleting a submission_id that matches no record returns `False`
without raising and leaves the record set unchanged, in both the JSON-file
variant and the MySQL variant (where moreover the early return skips
`conn.close()`). -/
theorem C4_delete_nonexistent_noop (data : List SimpleRec) (table : List Row)
    (sid confirm : String) (saveOk : Bool)
    (hdata : ∀ r ∈ data, r.submission_id ≠ sid)
    (htable : ∀ r ∈ table, r.submission_id ≠ sid) :
    delete_record data (some sid) none confirm saveOk = (false, data)
    ∧ db_delete_record table sid confirm false =
        { ok := false, table := table, connClosed := false } := by
  constructor
  · have hfind : data.findIdx?
        (fun r => r.submission_id == sid) = none := by
      rw [List.findIdx?_eq_none_iff]
      intro r hr
      simpa using hdata r hr
    unfold delete_record
    by_cases h0 : sid = ""
    · subst h0
      simp [truthyStr, truthyInt]
    · have ht : truthyStr (some sid) = true := by simp [truthyStr, h0]
      simp [ht, hfind]
  · have hfind : table.find? (fun r => r.submission_id == sid) = none := by
      rw [List.find?_eq_none]
      intro r hr
      simpa using htable r hr
    unfold db_delete_record
    simp [hfind]

/-- C4 witness: deleting an id absent from concrete one-record stores. -/
theorem C4_delete_nonexistent_witness :
    delete_record [rec1] (some "ZZZZ9999") none "yes" true = (false, [rec1])
    ∧ db_delete_record [row1] "ZZZZ9999" "yes" false =
        { ok := false, table := [row1], connClosed := false } :=
  C4_delete_nonexistent_noop [rec1] [row1] "ZZZZ9999" "yes" true
    (by decide) (by decide)

/-! ## Claim C8 -/

/-- C8: `load_data` returns the parsed list when the file exists and parses,
and `[]` when the file is absent or its contents fail to parse. -/
theorem C8_load_data_total :
    load_data FileState.absent = []
    ∧ load_data (FileState.present none) = []
    ∧ ∀ l, load_data (FileState.present (some l)) = l :=
  ⟨rfl, rfl, fun _ => rfl⟩

/-! ## Claim C9 -/

/-- C9: exporting an empty store returns `False` and writes no file, for any
filename argument, in both variants (the emptiness check precedes every
filesystem access). -/
theorem C9_export_empty_store_no_file (now : String) (filename : Option String) :
    export_to_csv now [] filename = (false, none)
    ∧ db_export_to_csv now [] filename = (false, none) :=
  ⟨rfl, rfl⟩

/-! ## Claim C3 -/

/-- C3 counterexample: neither the JSON-file export's header row (which has
`email` and `phone` and lacks `photo_filename`) nor the admin-panel
download's header row (which drops `id`) is the claimed
`id, submission_id, name, committee, social_media_links, photo_filename,
submission_date`. -/
theorem C3_export_headers_counterexample :
    simple_export_headers ≠ spec_export_headers
    ∧ app_export_headers ≠ spec_export_headers := by
  exact ⟨by decide, by decide⟩

/-- C3 (amended): only the MySQL-CLI export has exactly the claimed header
row; the JSON-file export's header is `id, submission_id, name, committee,
social_media_links, email, phone, submission_date` and the admin-panel
download's header is the claimed one minus `id`.  In every variant a
non-empty export writes one header line plus one row per record, and the
binary photo payload is excluded (the row projection ignores
`photo_data`). -/
theorem C3_export_headers_amended (now : String) (fname : Option String)
    (data : List SimpleRec) (table : List Row)
    (hd : data ≠ []) (ht : table ≠ []) :
    db_export_headers = spec_export_headers
    ∧ simple_export_headers
        = ["id", "submission_id", "name", "committee", "social_media_links",
           "email", "phone", "submission_date"]
    ∧ app_export_headers
        = ["submission_id", "name", "committee", "social_media_links",
           "photo_filename", "submission_date"]
    ∧ (∃ lines, (export_to_csv now data fname).2
          = some (fname.getD ("registrations_export_" ++ now ++ ".csv"), lines)
        ∧ lines.length = data.length + 1
        ∧ lines.head? = some (String.intercalate "," simple_export_headers))
    ∧ (∃ lines, (db_export_to_csv now table fname).2
          = some (fname.getD ("committee_registrations_" ++ now ++ ".csv"),
                  lines)
        ∧ lines.length = table.length + 1
        ∧ lines.head? = some (String.intercalate "," db_export_headers))
    ∧ (∀ (r : Row) (pd : Option (List Nat)),
        projectView { r with photo_data := pd } = projectView r) := by
  refine ⟨by decide, by decide, by decide, ?_, ?_, fun r pd => rfl⟩
  · have hne : data.isEmpty = false := by
      cases data with
      | nil => exact absurd rfl hd
      | cons a t => rfl
    unfold export_to_csv
    rw [hne]
    refine ⟨simple_export_lines data, rfl, ?_, rfl⟩
    simp [simple_export_lines]
  · have hlen : ((table.insertionSort (dateGEBy Row.submission_date)).map
        projectView).length = table.length := by
      rw [List.length_map, List.length_insertionSort]
    have hne : ((table.insertionSort (dateGEBy Row.submission_date)).map
        projectView).isEmpty = false := by
      rw [List.isEmpty_eq_false_iff_exists_mem]
      cases htab : table.insertionSort (dateGEBy Row.submission_date) with
      | nil =>
        exfalso
        have hl := List.length_insertionSort (dateGEBy Row.submission_date) table
        rw [htab] at hl
        cases table with
        | nil => exact ht rfl
        | cons a t => simp at hl
      | cons a t =>
        exact ⟨projectView a, List.mem_map_of_mem _ (List.mem_cons_self a t)⟩
    simp only [db_export_to_csv, hne, Bool.false_eq_true, if_false]
    refine ⟨_, rfl, ?_, rfl⟩
    simp [hlen]

/-- C3 witness: the amended statement at a concrete one-record store. -/
theorem C3_export_headers_witness :
    db_export_headers = spec_export_headers
    ∧ simple_export_headers
        = ["id", "submission_id", "name", "committee", "social_media_links",
           "email", "phone", "submission_date"]
    ∧ app_export_headers
        = ["submission_id", "name", "committee", "social_media_links",
           "photo_filename", "submission_date"]
    ∧ (∃ lines, (export_to_csv "T" [rec1] none).2
          = some ((none : Option String).getD
              ("registrations_export_" ++ "T" ++ ".csv"), lines)
        ∧ lines.length = [rec1].length + 1
        ∧ lines.head? = some (String.intercalate "," simple_export_headers))
    ∧ (∃ lines, (db_export_to_csv "T" [row1] none).2
          = some ((none : Option String).getD
              ("committee_registrations_" ++ "T" ++ ".csv"), lines)
        ∧ lines.length = [row1].length + 1
        ∧ lines.head? = some (String.intercalate "," db_export_headers))
    ∧ (∀ (r : Row) (pd : Option (List Nat)),
        projectView { r with photo_data := pd } = projectView r) :=
  C3_export_headers_amended "T" none [rec1] [row1] (by decide) (by decide)

/-! ## Claim C5 -/

/-- Scanning a quoted field whose body was produced by quote doubling
recovers the original text and consumes the closing quote exactly. -/
theorem scanQuoted_doubleQuotes :
    ∀ v : List Char, scanQuoted (doubleQuotes v ++ ['\x22']) = some (v, [])
  | [] => rfl
  | c :: cs => by
    by_cases hc : c = '\x22'
    · subst hc
      have h1 : scanQuoted (doubleQuotes ('\x22' :: cs) ++ ['\x22'])
          = (scanQuoted (doubleQuotes cs ++ ['\x22'])).map
              (fun p => ('\x22' :: p.1, p.2)) := rfl
      rw [h1, scanQuoted_doubleQuotes cs]
      rfl
    · have h1 : doubleQuotes (c :: cs) = c :: doubleQuotes cs := by
        rw [doubleQuotes.eq_2, if_neg hc]
      rw [h1]
      have h2 : scanQuoted ((c :: doubleQuotes cs) ++ ['\x22'])
          = (scanQuoted (doubleQuotes cs ++ ['\x22'])).map
              (fun p => (c :: p.1, p.2)) := by
        show scanQuoted (c :: (doubleQuotes cs ++ ['\x22'])) = _
        cases hdq : doubleQuotes cs ++ ['\x22'] with
        | nil => exact absurd hdq (by simp)
        | cons d ds => rw [scanQuoted.eq_3, if_neg hc]
      rw [h2, scanQuoted_doubleQuotes cs]
      rfl

/-- C5: every field value containing the comma delimiter or the double-quote
character is emitted wrapped in double quotes with embedded quotes doubled,
and standard CSV parsing of the rendered text yields exactly one field equal
to the original value, consuming the whole input. -/
theorem C5_csv_quoting_roundtrip (v : String) (h : needsQuoting v = true) :
    csvField v = ⟨'\x22' :: (doubleQuotes v.data ++ ['\x22'])⟩
    ∧ readCsvField (csvField v).data = some (v.data, []) := by
  have h1 : csvField v = ⟨'\x22' :: (doubleQuotes v.data ++ ['\x22'])⟩ := by
    unfold csvField
    rw [if_pos h]
  refine ⟨h1, ?_⟩
  rw [h1]
  show readCsvField ('\x22' :: (doubleQuotes v.data ++ ['\x22'])) = _
  rw [show readCsvField ('\x22' :: (doubleQuotes v.data ++ ['\x22']))
      = scanQuoted (doubleQuotes v.data ++ ['\x22']) from rfl]
  exact scanQuoted_doubleQuotes v.data

/-- C5 witness: the comma-holding example from the specification renders as
a single quoted field that re-parses to the original string. -/
theorem C5_csv_quoting_witness :
    csvField "https://a.com, https://b.com"
      = "\"https://a.com, https://b.com\""
    ∧ readCsvField (csvField "https://a.com, https://b.com").data
      = some ("https://a.com, https://b.com".data, []) := by
  have h := C5_csv_quoting_roundtrip "https://a.com, https://b.com" (by decide)
  exact ⟨h.1.trans (by decide), h.2⟩

/-! ## Claim C6 -/

/-- C6 counterexample: when the executed statement raises, `app.
get_photo_data` propagates the exception to its caller without ever reaching
`conn.close()` — the connection is not released on that exit path. -/
theorem C6_connection_release_counterexample :
    (get_photo_data [row1] "AAAA1111" true).2 = false := by decide

/-- C6 (amended): store operations close their connection only on the normal
completion path.  On the path where the executed statement raises,
`get_photo_data` and `get_record_by_id` leave the connection open, and
`delete_record` leaves it open even on its normal not-found path; only
`get_all_submissions` releases its engine on all paths (its query runs under
`try/finally`). -/
theorem C6_connection_release_amended (table : List Row)
    (sid confirm : String) (b : Bool)
    (hnf : table.find? (fun r => r.submission_id == sid) = none) :
    (get_photo_data table sid false).2 = true
    ∧ (get_photo_data table sid true).2 = false
    ∧ (db_get_record_by_id table sid false).2 = true
    ∧ (db_get_record_by_id table sid true).2 = false
    ∧ (db_delete_record table sid confirm false).connClosed = false
    ∧ (get_all_submissions table b).2 = true := by
  refine ⟨rfl, rfl, rfl, rfl, ?_, ?_⟩
  · unfold db_delete_record
    simp [hnf]
  · unfold get_all_submissions
    cases b <;> rfl

/-- C6 witness: the amended statement at a concrete table and an id that
matches nothing. -/
theorem C6_connection_release_witness :
    (get_photo_data [row1] "ZZZZ9999" false).2 = true
    ∧ (get_photo_data [row1] "ZZZZ9999" true).2 = false
    ∧ (db_get_record_by_id [row1] "ZZZZ9999" false).2 = true
    ∧ (db_get_record_by_id [row1] "ZZZZ9999" true).2 = false
    ∧ (db_delete_record [row1] "ZZZZ9999" "yes" false).connClosed = false
    ∧ (get_all_submissions [row1] true).2 = true :=
  C6_connection_release_amended [row1] "ZZZZ9999" "yes" true (by decide)

/-! ## Claim C7 -/

theorem getCount_bumpKey (acc : List (String × Nat)) (k c : String) :
    getCount (bumpKey acc k) c = getCount acc c + (if c = k then 1 else 0) := by
  induction acc with
  | nil =>
    simp only [bumpKey, getCount]
    by_cases h : k = c
    · subst h; simp
    · rw [if_neg h, if_neg (fun hh => h hh.symm)]
  | cons p rest ih =>
    simp only [bumpKey]
    by_cases h1 : p.1 = k
    · rw [if_pos h1]
      simp only [getCount]
      by_cases h2 : p.1 = c
      · rw [if_pos h2, if_pos h2, if_pos (h2.symm.trans h1)]
      · rw [if_neg h2, if_neg h2, if_neg (fun hh => h2 (h1.trans hh.symm))]
        omega
    · rw [if_neg h1]
      simp only [getCount]
      by_cases h2 : p.1 = c
      · rw [if_pos h2, if_pos h2,
            if_neg (fun hh => h1 (h2.trans hh))]
        omega
      · rw [if_neg h2, if_neg h2, ih]

theorem keys_bumpKey (acc : List (String × Nat)) (k : String) :
    (bumpKey acc k).map Prod.fst =
      if k ∈ acc.map Prod.fst then acc.map Prod.fst
      else acc.map Prod.fst ++ [k] := by
  induction acc with
  | nil => simp [bumpKey]
  | cons p rest ih =>
    by_cases h1 : p.1 = k
    · simp [bumpKey, h1]
    · simp only [bumpKey, if_neg h1, List.map_cons, ih]
      by_cases h2 : k ∈ rest.map Prod.fst
      · rw [if_pos h2, if_pos (List.mem_cons_of_mem _ h2)]
      · rw [if_neg h2,
            if_neg (fun hmem => (List.mem_cons.mp hmem).elim
              (fun hh => h1 hh.symm) h2),
            List.cons_append]

theorem nodup_keys_bumpKey {acc : List (String × Nat)} (k : String)
    (h : (acc.map Prod.fst).Nodup) : ((bumpKey acc k).map Prod.fst).Nodup := by
  rw [keys_bumpKey]
  split
  · exact h
  · rename_i hnot
    rw [List.nodup_append]
    refine ⟨h, List.nodup_singleton _, ?_⟩
    intro a ha hb
    rw [List.mem_singleton] at hb
    subst hb
    exact hnot ha

theorem getCount_foldl (cs : List String) :
    ∀ (acc : List (String × Nat)) (c : String),
      getCount (cs.foldl bumpKey acc) c
        = getCount acc c + cs.countP (fun k => k == c) := by
  induction cs with
  | nil => intro acc c; simp [getCount]
  | cons k cs ih =>
    intro acc c
    simp only [List.foldl_cons, List.countP_cons]
    rw [ih, getCount_bumpKey]
    by_cases h : k = c
    · subst h; simp; omega
    · have hb : (k == c) = false := by simp [h]
      rw [hb, if_neg (fun hh => h hh.symm)]
      simp

theorem nodup_keys_foldl (cs : List String) :
    ∀ acc : List (String × Nat), (acc.map Prod.fst).Nodup →
      ((cs.foldl bumpKey acc).map Prod.fst).Nodup := by
  induction cs with
  | nil => intro acc h; exact h
  | cons k cs ih => intro acc h; exact ih _ (nodup_keys_bumpKey k h)

theorem snd_eq_getCount_of_mem {l : List (String × Nat)}
    (h : (l.map Prod.fst).Nodup) {p : String × Nat} (hp : p ∈ l) :
    p.2 = getCount l p.1 := by
  induction l with
  | nil => cases hp
  | cons q rest ih =>
    rw [List.map_cons, List.nodup_cons] at h
    rcases List.mem_cons.mp hp with rfl | hmem
    · simp [getCount]
    · have hq : ¬ q.1 = p.1 := by
        intro he
        exact h.1 (he ▸ List.mem_map_of_mem Prod.fst hmem)
      simp only [getCount, if_neg hq]
      exact ih h.2 hmem

theorem mem_keys_of_getCount_ne_zero {l : List (String × Nat)} {c : String}
    (h : getCount l c ≠ 0) : c ∈ l.map Prod.fst := by
  induction l with
  | nil => simp [getCount] at h
  | cons q rest ih =>
    by_cases hq : q.1 = c
    · simp [hq]
    · simp only [getCount, if_neg hq] at h
      simp [ih h]

/-- C7 counterexample: on a three-record JSON store with two distinct
committees, `get_statistics` returns `{}` — there is no `by_committee`
component at all (the `AttributeError` of C2 aborts the body).  Moreover the
`committees` dict the body does build lists entries in first-seen order
(count 1 before count 2), not by descending count. -/
theorem C7_by_committee_counterexample :
    get_statistics [rec1, rec2, rec3] = none
    ∧ committeeCounts ([rec1, rec2, rec3].map (fun r => r.committee))
        = [("Technical Committee", 1), ("Executive Committee", 2)] :=
  ⟨rfl, by decide⟩

/-- C7 (amended): in the MySQL variant the `by_committee` statistics rows
group the table by exact committee string — one entry per distinct committee
carrying exactly its row count — and are ordered by descending count.  (The
JSON-file variant returns `{}` instead; see the counterexample.) -/
theorem C7_db_by_committee_grouped_desc (table : List Row) :
    (db_committee_stats table).Pairwise countGE
    ∧ (∀ p ∈ db_committee_stats table, p.2 = countCommittee table p.1)
    ∧ ((db_committee_stats table).map Prod.fst).Nodup
    ∧ (∀ r ∈ table,
        r.committee ∈ (db_committee_stats table).map Prod.fst) := by
  have hperm : (db_committee_stats table).Perm
      (committeeCounts (table.map (fun r => r.committee))) :=
    List.perm_insertionSort countGE _
  have hgc : ∀ c, getCount (committeeCounts
      (table.map (fun r => r.committee))) c = countCommittee table c := by
    intro c
    unfold committeeCounts countCommittee
    rw [getCount_foldl]
    simp only [getCount, List.countP_map]
    simp only [Nat.zero_add]
    rfl
  have hnodup : ((committeeCounts
      (table.map (fun r => r.committee))).map Prod.fst).Nodup :=
    nodup_keys_foldl _ [] (by simp)
  refine ⟨List.sorted_insertionSort countGE _, ?_, ?_, ?_⟩
  · intro p hp
    have hp2 := hperm.mem_iff.mp hp
    rw [snd_eq_getCount_of_mem hnodup hp2, hgc]
  · exact ((hperm.map Prod.fst).symm).nodup hnodup
  · intro r hr
    have hpos : getCount (committeeCounts
        (table.map (fun r => r.committee))) r.committee ≠ 0 := by
      rw [hgc]
      unfold countCommittee
      have h1 : 0 < table.countP (fun x => x.committee == r.committee) :=
        List.countP_pos_iff.mpr ⟨r, hr, by simp⟩
      omega
    exact ((hperm.map Prod.fst).mem_iff).mpr
      (mem_keys_of_getCount_ne_zero hpos)

/-- C7 witness: the amended statement instantiated at a one-row table. -/
theorem C7_db_by_committee_witness :
    ("Technical Committee", 1).2
        = countCommittee [row1] ("Technical Committee", 1).1
    ∧ row1.committee ∈ (db_committee_stats [row1]).map Prod.fst :=
  ⟨(C7_db_by_committee_grouped_desc [row1]).2.1 ("Technical Committee", 1)
      (by decide),
   (C7_db_by_committee_grouped_desc [row1]).2.2.2 row1 (by decide)⟩

/-! ## Claim C10 -/

theorem head?_dropWhile_not {p : α → Bool} :
    ∀ {l : List α} {c : α}, (l.dropWhile p).head? = some c → p c = false := by
  intro l
  induction l with
  | nil => intro c h; simp [List.dropWhile] at h
  | cons a t ih =>
    intro c h
    by_cases ha : p a
    · rw [List.dropWhile_cons_of_pos ha] at h
      exact ih h
    · rw [List.dropWhile_cons_of_neg ha] at h
      rw [List.head?_cons, Option.some_inj] at h
      subst h
      exact Bool.eq_false_iff.mpr ha

theorem getLast?_dropWhile {p : α → Bool} :
    ∀ l : List α, l.dropWhile p ≠ [] →
      (l.dropWhile p).getLast? = l.getLast? := by
  intro l
  induction l with
  | nil => intro h; simp [List.dropWhile] at h
  | cons a t ih =>
    intro h
    by_cases ha : p a
    · rw [List.dropWhile_cons_of_pos ha] at h ⊢
      cases ht : t with
      | nil => rw [ht] at h; simp [List.dropWhile] at h
      | cons b t2 =>
        rw [← ht, ih h, ht, List.getLast?_cons_cons]
    · rw [List.dropWhile_cons_of_neg ha]

theorem stripChars_head_not_ws {l : List Char} {c : Char}
    (h : (stripChars l).head? = some c) : c.isWhitespace = false := by
  unfold stripChars at h
  rw [List.head?_reverse] at h
  have hne : (l.dropWhile Char.isWhitespace).reverse.dropWhile
      Char.isWhitespace ≠ [] := by
    intro he
    rw [he] at h
    simp at h
  rw [getLast?_dropWhile _ hne, List.getLast?_reverse] at h
  exact head?_dropWhile_not h

theorem stripChars_getLast_not_ws {l : List Char} {c : Char}
    (h : (stripChars l).getLast? = some c) : c.isWhitespace = false := by
  unfold stripChars at h
  rw [List.getLast?_reverse] at h
  exact head?_dropWhile_not h

/-- C10: `parse_social_media_links` returns `[]` on `None` and on the empty
string, and every element it returns is non-empty with no leading or
trailing whitespace character. -/
theorem C10_parse_links_stripped_nonempty :
    parse_social_media_links none = []
    ∧ parse_social_media_links (some "") = []
    ∧ ∀ (s : String), ∀ x ∈ parse_social_media_links (some s),
        x ≠ ""
        ∧ (∀ c, x.data.head? = some c → c.isWhitespace = false)
        ∧ (∀ c, x.data.getLast? = some c → c.isWhitespace = false) := by
  refine ⟨rfl, rfl, ?_⟩
  intro s x hx
  have hx2 : x ∈ (if s = "" then ([] : List String)
      else ((splitOnComma s.data).map
        (fun f => (⟨stripChars f⟩ : String))).filter (fun y => y != "")) := hx
  by_cases hs : s = ""
  · rw [if_pos hs] at hx2
    exact absurd hx2 (List.not_mem_nil x)
  · rw [if_neg hs] at hx2
    have hx1 := List.mem_filter.mp hx2
    obtain ⟨f, _, hfx⟩ := List.mem_map.mp hx1.1
    refine ⟨by simpa using hx1.2, ?_, ?_⟩
    · intro c hc
      rw [← hfx] at hc
      exact stripChars_head_not_ws hc
    · intro c hc
      rw [← hfx] at hc
      exact stripChars_getLast_not_ws hc

/-- C10 witness: a concrete input with surrounding spaces and an empty
fragment. -/
theorem C10_parse_links_witness :
    "a" ≠ ""
    ∧ (∀ c, "a".data.head? = some c → c.isWhitespace = false)
    ∧ (∀ c, "a".data.getLast? = some c → c.isWhitespace = false) :=
  C10_parse_links_stripped_nonempty.2.2 " a ,, b " "a" (by decide)

end Sabrang
